import Mathlib

/-!
Shallow embedding of the bidding/auction-closing core of the auctionBackend
repository (src/app/routers/bids.py, src/app/routers/status.py,
src/app/routers/participation.py, src/app/crud.py).

The database is modelled per auction: a `Db` holds the one auction row the
operation targets together with the insertion-ordered lists of bid, payment
and notification rows.  Timestamps are integers (seconds); the constants of
the source (`timedelta(minutes=5)`, `timedelta(minutes=10)`) become 300 and
600.  SQL queries over a table become functions over the insertion-ordered
list.  `ORDER BY bidPrice DESC ... LIMIT 1` has no secondary sort key, so
the database specifies nothing about which row is returned among equal
maximal prices; an executable embedding must still pick one, and the left
fold below picks the earliest row.  No theorem relies on that choice:
the theorems only use that the result is an active row of maximal price,
except where the tie itself is under scrutiny (see `legal_highest_row`
and the C6 theorem, which treat the tie order as unspecified).
-/

namespace AuctionBackend

/-- Auction row (`models.Auction`): start/end dates, price step, status,
optional winner reference. -/
structure Auction where
  auctionId : Nat
  startDate : Int
  endDate : Int
  priceStep : Int
  auctionStatus : String
  bidWinnerId : Option Nat
  deriving Repr, DecidableEq

/-- Bid row (`models.Bid`). -/
structure Bid where
  bidId : Nat
  auctionId : Nat
  userId : Nat
  bidPrice : Int
  bidStatus : String
  createdAt : Int
  deriving Repr, DecidableEq

/-- Payment row (`models.Payment`), restricted to the fields the bidding
core reads. -/
structure Payment where
  paymentId : Nat
  auctionId : Nat
  userId : Nat
  paymentType : String
  paymentStatus : String
  amount : Int
  deriving Repr, DecidableEq

/-- Notification row (`models.Notification`), restricted to the fields the
bidding core writes. -/
structure Notification where
  userId : Nat
  auctionId : Nat
  notificationType : String
  deriving Repr, DecidableEq

/-- The per-auction database state: the targeted auction row plus the bid,
payment and notification tables in insertion order, and the set of existing
account ids. -/
structure Db where
  auction : Auction
  bids : List Bid
  payments : List Payment
  notifications : List Notification
  accounts : List Nat
  deriving Repr, DecidableEq

/-- Predicate of the filter in `crud.get_current_highest_bid`:
`Bid.auctionID == auction_id, Bid.bidStatus == "active"`. -/
def isActiveBidFor (auctionId : Nat) (b : Bid) : Bool :=
  b.auctionId == auctionId && b.bidStatus == "active"

/-- One step of `ORDER BY bidPrice DESC ... first()` over an
insertion-ordered table: keep the accumulator unless the next row is
strictly higher.  This determinizes the query to earliest-row-wins among
equal maxima — a choice the SQL itself does not make, since the source
query has no secondary sort key; see `legal_highest_row` for the
order-free guarantee the query actually gives. -/
def pickHigher (acc : Option Bid) (b : Bid) : Option Bid :=
  match acc with
  | none => some b
  | some a => if a.bidPrice < b.bidPrice then some b else some a

/-- `crud.get_current_highest_bid`: the active bid of the auction with the
greatest `bidPrice`, or `none`.  Among equal maximal prices this embedding
deterministically returns the earliest row, one of the executions the
underspecified one-key `ORDER BY` permits. -/
def get_current_highest_bid (bids : List Bid) (auctionId : Nat) : Option Bid :=
  (bids.filter (isActiveBidFor auctionId)).foldl pickHigher none

/-- The deposit query of `place_bid` (src/app/routers/bids.py lines 62-67):
a payment of type `deposit` with status `completed` for this auction and
user. -/
def has_completed_deposit (payments : List Payment) (auctionId userId : Nat) : Bool :=
  payments.any fun p =>
    p.auctionId == auctionId && p.userId == userId &&
    p.paymentType == "deposit" && p.paymentStatus == "completed"

/-- Error taxonomy of the `place_bid` route. -/
inductive PlaceBidError where
  | auctionNotFound
  | auctionNotActive
  | notAcceptingBids
  | depositRequired
  | bidTooLow (minimum : Int)
  deriving Repr, DecidableEq

/-- The `detail` strings raised by `place_bid`. -/
def placeBidErrorDetail : PlaceBidError → String
  | .auctionNotFound => "Auction not found"
  | .auctionNotActive => "Auction is not currently active"
  | .notAcceptingBids => "Auction is not accepting bids"
  | .depositRequired =>
      "You must register and pay the deposit before placing bids. Please register for participation first."
  | .bidTooLow m => "Bid must be at least " ++ toString m ++ " VND"

/-- Successful outcome of `place_bid`: the committed bid, the `extended`
flag, the users to whom an outbid websocket event was dispatched, and the
database after the transaction. -/
structure PlaceBidResult where
  newBid : Bid
  extended : Bool
  outbidEvents : List Nat
  db : Db
  deriving Repr, DecidableEq

/-- The minimum acceptable next bid as `place_bid` computes it from the
fetched previous highest bid (src/app/routers/bids.py lines 76-80):
`previous_highest_bid.bid_price + auction.price_step` when a highest bid
exists, else `auction.price_step`. -/
def minimum_next_bid (db : Db) (auctionId : Nat) : Int :=
  match get_current_highest_bid db.bids auctionId with
  | some hb => hb.bidPrice + db.auction.priceStep
  | none => db.auction.priceStep

/-- `place_bid` (src/app/routers/bids.py lines 26-192).  `notifyOk` models
whether the notification block (wrapped in `try/except` in the source)
runs to completion or raises at its start; either way the committed bid is
returned. -/
def place_bid (db : Db) (auctionId userId : Nat) (bidPrice now : Int)
    (nextBidId : Nat) (notifyOk : Bool) :
    Except PlaceBidError PlaceBidResult :=
  if db.auction.auctionId ≠ auctionId then .error .auctionNotFound
  else if ¬ (db.auction.startDate ≤ now ∧ now ≤ db.auction.endDate) then
    .error .auctionNotActive
  else if db.auction.auctionStatus ≠ "active" then .error .notAcceptingBids
  else if has_completed_deposit db.payments auctionId userId = false then
    .error .depositRequired
  else
    let previousHighest := get_current_highest_bid db.bids auctionId
    if bidPrice < minimum_next_bid db auctionId then
      .error (.bidTooLow (minimum_next_bid db auctionId))
    else
      let newBid : Bid :=
        ⟨nextBidId, auctionId, userId, bidPrice, "active", now⟩
      let outbidEvents : List Nat :=
        if notifyOk then
          match previousHighest with
          | some hb => if hb.userId ≠ userId then [hb.userId] else []
          | none => []
        else []
      let newNotifications : List Notification :=
        if notifyOk then
          match previousHighest with
          | some hb =>
            if hb.userId ≠ userId then
              db.notifications ++ [⟨hb.userId, auctionId, "bid_outbid"⟩]
            else db.notifications
          | none => db.notifications
        else db.notifications
      if db.auction.endDate - now ≤ 300 then
        .ok { newBid := newBid, extended := true, outbidEvents := outbidEvents,
              db := { db with
                        auction := { db.auction with endDate := db.auction.endDate + 300 },
                        bids := db.bids ++ [newBid],
                        notifications := newNotifications } }
      else
        .ok { newBid := newBid, extended := false, outbidEvents := outbidEvents,
              db := { db with
                        bids := db.bids ++ [newBid],
                        notifications := newNotifications } }

/-- `crud.get_bid`: first bid row with the given id. -/
def get_bid (db : Db) (bidId : Nat) : Option Bid :=
  db.bids.find? fun b => b.bidId == bidId

/-- Whether the current highest active bid of the auction belongs to the
given user — the condition `current_highest_bid and
current_highest_bid.user_id == current_user.account_id` of the cancel
route. -/
def user_is_leading (db : Db) (auctionId userId : Nat) : Bool :=
  match get_current_highest_bid db.bids auctionId with
  | some hb => hb.userId == userId
  | none => false

/-- `crud.cancel_bid`'s write: set the status of the bid row to
`cancelled`. -/
def crud_cancel_bid (bids : List Bid) (bidId : Nat) : List Bid :=
  bids.map fun b =>
    if b.bidId == bidId then { b with bidStatus := "cancelled" } else b

/-- Error taxonomy of the `cancel_bid` route. -/
inductive CancelBidError where
  | bidNotFound
  | notOwner
  | bidNotActive
  | auctionNotFound
  | auctionEnded
  | leadingInLastTenMinutes
  deriving Repr, DecidableEq

/-- `cancel_bid` (src/app/routers/bids.py lines 196-273 together with
`crud.cancel_bid`, src/app/crud.py lines 266-274). -/
def cancel_bid (db : Db) (bidId userId : Nat) (now : Int) :
    Except CancelBidError Db :=
  match get_bid db bidId with
  | none => .error .bidNotFound
  | some bid =>
    if bid.userId ≠ userId then .error .notOwner
    else if bid.bidStatus ≠ "active" then .error .bidNotActive
    else if db.auction.auctionId ≠ bid.auctionId then .error .auctionNotFound
    else
      let timeDiff := db.auction.endDate - now
      if timeDiff ≤ 0 then .error .auctionEnded
      else if user_is_leading db bid.auctionId userId ∧ timeDiff ≤ 600 then
        .error .leadingInLastTenMinutes
      else
        let auction' :=
          if user_is_leading db bid.auctionId userId then
            { db.auction with endDate := db.auction.endDate + 300 }
          else db.auction
        .ok { db with auction := auction', bids := crud_cancel_bid db.bids bidId }

/-- Error taxonomy of the `finalize_auction` route. -/
inductive FinalizeError where
  | adminRequired
  | auctionNotFound
  | notEnded
  | noBids
  deriving Repr, DecidableEq

/-- `finalize_auction` (src/app/routers/status.py lines 322-384): after the
end, set the winner to the holder of the highest active bid and the status
to `finalized`. -/
def finalize_auction (db : Db) (auctionId : Nat) (isAdmin : Bool) (now : Int) :
    Except FinalizeError Db :=
  if isAdmin = false then .error .adminRequired
  else if db.auction.auctionId ≠ auctionId then .error .auctionNotFound
  else if now < db.auction.endDate then .error .notEnded
  else
    match get_current_highest_bid db.bids auctionId with
    | none => .error .noBids
    | some hb =>
      .ok { db with
              auction := { db.auction with
                             bidWinnerId := some hb.userId,
                             auctionStatus := "finalized" } }

/-- Error taxonomy of the `update_auction_result` route. -/
inductive ResultUpdateError where
  | adminRequired
  | auctionNotFound
  | notEnded
  | winnerNotFound
  deriving Repr, DecidableEq

/-- `update_auction_result` (src/app/routers/status.py lines 78-147): after
the end, set the winner to any existing account and the status to
`completed`; no check that any bid exists. -/
def update_auction_result (db : Db) (auctionId bidWinnerId : Nat)
    (isAdmin : Bool) (now : Int) : Except ResultUpdateError Db :=
  if isAdmin = false then .error .adminRequired
  else if db.auction.auctionId ≠ auctionId then .error .auctionNotFound
  else if now < db.auction.endDate then .error .notEnded
  else if (bidWinnerId ∈ db.accounts) = false then .error .winnerNotFound
  else
    .ok { db with
            auction := { db.auction with
                           bidWinnerId := some bidWinnerId,
                           auctionStatus := "completed" } }

/-- The deposit payments of one user for one auction (the `existing_deposit_payments`
query of `register_for_auction`, any payment status). -/
def deposit_payments_for (payments : List Payment) (auctionId userId : Nat) :
    List Payment :=
  payments.filter fun p =>
    p.auctionId == auctionId && p.userId == userId && p.paymentType == "deposit"

/-- Error taxonomy of the `register_for_auction` route. -/
inductive RegisterError where
  | auctionNotFound
  | alreadyStarted
  | cancelledOrEnded
  | alreadyRegistered
  | auctionFull
  deriving Repr, DecidableEq

/-- `register_for_auction` (src/app/routers/participation.py lines 28-138):
create one pending deposit payment of `price_step * 10` unless one already
exists for this user and auction. -/
def register_for_auction (db : Db) (auctionId userId : Nat) (now : Int)
    (nextPaymentId : Nat) : Except RegisterError Db :=
  if db.auction.auctionId ≠ auctionId then .error .auctionNotFound
  else if db.auction.startDate ≤ now then .error .alreadyStarted
  else if db.auction.auctionStatus = "cancelled" ∨ db.auction.auctionStatus = "ended" then
    .error .cancelledOrEnded
  else if deposit_payments_for db.payments auctionId userId ≠ [] then
    .error .alreadyRegistered
  else if 50 ≤ (db.payments.filter fun p =>
      p.auctionId == auctionId && p.paymentType == "deposit").length then
    .error .auctionFull
  else
    .ok { db with
            payments := db.payments ++
              [⟨nextPaymentId, auctionId, userId, "deposit", "pending",
                db.auction.priceStep * 10⟩] }

/-- Websocket connection registry (`crud.active_connections`): association
list from user id to the list of registered channels. -/
def Registry := List (Nat × List Nat)

/-- The registered channel set of one user
(`active_connections.get(user_id, set())`). -/
def user_channels (registry : List (Nat × List Nat)) (userId : Nat) : List Nat :=
  match registry.find? (fun p => p.1 == userId) with
  | some p => p.2
  | none => []

/-- The loop of `crud.send_to_user`: attempt each send, collecting the
channels whose send raised into `disconnected`; the `except` clause keeps
the loop going. -/
def collect_disconnected (send : Nat → Except String Unit) :
    List Nat → List Nat
  | [] => []
  | c :: rest =>
    match send c with
    | .ok _ => collect_disconnected send rest
    | .error _ => c :: collect_disconnected send rest

/-- `crud.send_to_user` (src/app/crud.py lines 479-493): send to every
registered channel of the user, discard the channels whose send raised,
and return normally in every case. -/
def send_to_user (registry : List (Nat × List Nat)) (userId : Nat)
    (send : Nat → Except String Unit) :
    Except String (List (Nat × List Nat)) :=
  let disconnected := collect_disconnected send (user_channels registry userId)
  .ok (registry.map fun p =>
    if p.1 == userId then
      (p.1, p.2.filter fun c => !(disconnected.contains c))
    else p)

/-! ## Helper lemmas about `place_bid` -/

theorem place_bid_rejects_low {db : Db} {auctionId userId : Nat} {bidPrice now : Int}
    {nextBidId : Nat} {notifyOk : Bool}
    (hid : db.auction.auctionId = auctionId)
    (hwin : db.auction.startDate ≤ now ∧ now ≤ db.auction.endDate)
    (hstat : db.auction.auctionStatus = "active")
    (hdep : has_completed_deposit db.payments auctionId userId = true)
    (hlt : bidPrice < minimum_next_bid db auctionId) :
    place_bid db auctionId userId bidPrice now nextBidId notifyOk =
      .error (.bidTooLow (minimum_next_bid db auctionId)) := by
  unfold place_bid
  rw [if_neg (not_not_intro hid), if_neg (not_not_intro hwin),
      if_neg (not_not_intro hstat), if_neg (by simp [hdep])]
  simp only [if_pos hlt]

theorem place_bid_accepts {db : Db} {auctionId userId : Nat} {bidPrice now : Int}
    {nextBidId : Nat} {notifyOk : Bool}
    (hid : db.auction.auctionId = auctionId)
    (hwin : db.auction.startDate ≤ now ∧ now ≤ db.auction.endDate)
    (hstat : db.auction.auctionStatus = "active")
    (hdep : has_completed_deposit db.payments auctionId userId = true)
    (hge : minimum_next_bid db auctionId ≤ bidPrice) :
    ∃ r, place_bid db auctionId userId bidPrice now nextBidId notifyOk = .ok r := by
  unfold place_bid
  rw [if_neg (not_not_intro hid), if_neg (not_not_intro hwin),
      if_neg (not_not_intro hstat), if_neg (by simp [hdep])]
  simp only [if_neg (not_lt.mpr hge)]
  split
  · exact ⟨_, rfl⟩
  · exact ⟨_, rfl⟩

theorem place_bid_ok_inv {db : Db} {auctionId userId : Nat} {bidPrice now : Int}
    {nextBidId : Nat} {notifyOk : Bool} {r : PlaceBidResult}
    (h : place_bid db auctionId userId bidPrice now nextBidId notifyOk = .ok r) :
    db.auction.auctionId = auctionId ∧
    (db.auction.startDate ≤ now ∧ now ≤ db.auction.endDate) ∧
    db.auction.auctionStatus = "active" ∧
    has_completed_deposit db.payments auctionId userId = true ∧
    minimum_next_bid db auctionId ≤ bidPrice ∧
    r.newBid = ⟨nextBidId, auctionId, userId, bidPrice, "active", now⟩ ∧
    r.db.bids = db.bids ++ [r.newBid] ∧
    r.db.payments = db.payments ∧
    r.db.auction.auctionId = db.auction.auctionId ∧
    r.db.auction.startDate = db.auction.startDate ∧
    r.db.auction.priceStep = db.auction.priceStep ∧
    r.db.auction.auctionStatus = db.auction.auctionStatus ∧
    r.db.auction.bidWinnerId = db.auction.bidWinnerId ∧
    ((db.auction.endDate - now ≤ 300 ∧ r.extended = true ∧
        r.db.auction.endDate = db.auction.endDate + 300) ∨
     (300 < db.auction.endDate - now ∧ r.extended = false ∧
        r.db.auction.endDate = db.auction.endDate)) ∧
    r.outbidEvents = (if notifyOk then
        (match get_current_highest_bid db.bids auctionId with
        | some hb => if hb.userId ≠ userId then [hb.userId] else []
        | none => []) else []) := by
  by_cases h1 : db.auction.auctionId ≠ auctionId
  · rw [place_bid, if_pos h1] at h
    exact Except.noConfusion h
  by_cases h2 : ¬ (db.auction.startDate ≤ now ∧ now ≤ db.auction.endDate)
  · rw [place_bid, if_neg h1, if_pos h2] at h
    exact Except.noConfusion h
  by_cases h3 : db.auction.auctionStatus ≠ "active"
  · rw [place_bid, if_neg h1, if_neg h2, if_pos h3] at h
    exact Except.noConfusion h
  by_cases h4 : has_completed_deposit db.payments auctionId userId = false
  · rw [place_bid, if_neg h1, if_neg h2, if_neg h3, if_pos h4] at h
    exact Except.noConfusion h
  have h4' : has_completed_deposit db.payments auctionId userId = true := by
    simpa using h4
  by_cases h5 : bidPrice < minimum_next_bid db auctionId
  · rw [place_bid_rejects_low (not_ne_iff.mp h1) (not_not.mp h2) (not_ne_iff.mp h3)
      h4' h5] at h
    exact Except.noConfusion h
  simp only [place_bid] at h
  rw [if_neg h1, if_neg h2, if_neg h3, if_neg h4, if_neg h5] at h
  by_cases h6 : db.auction.endDate - now ≤ 300
  · rw [if_pos h6] at h
    injection h with h
    subst h
    simp_all [not_lt]
  · rw [if_neg h6] at h
    injection h with h
    subst h
    simp_all [not_lt]
    omega

/-! ## Concrete database states for witnesses and counterexamples -/

/-- A completed deposit payment of user `u` for auction 1. -/
def depositPayment (u : Nat) : Payment := ⟨u, 1, u, "deposit", "completed", 100000⟩

/-- Auction 1: open window `[0, 10000]`, price step 10000, status active. -/
def c1Db : Db :=
  ⟨⟨1, 0, 10000, 10000, "active", none⟩, [], [depositPayment 1], [], [1]⟩

/-- Same auction, one active bid of 10000 by user 1, deposits for users 1
and 2. -/
def c2Db : Db :=
  ⟨⟨1, 0, 10000, 10000, "active", none⟩,
   [⟨1, 1, 1, 10000, "active", 100⟩],
   [depositPayment 1, depositPayment 2], [], [1, 2]⟩

/-- The outcome of `place_bid c2Db 1 2 20000 9800 2 true`: accepted in the
last five minutes, so the end moves from 10000 to 10300 and user 1 gets the
outbid event. -/
def c3Result : PlaceBidResult :=
  ⟨⟨2, 1, 2, 20000, "active", 9800⟩, true, [1],
   ⟨⟨1, 0, 10300, 10000, "active", none⟩,
    [⟨1, 1, 1, 10000, "active", 100⟩, ⟨2, 1, 2, 20000, "active", 9800⟩],
    [depositPayment 1, depositPayment 2],
    [⟨1, 1, "bid_outbid"⟩], [1, 2]⟩⟩

/-- Auction 1 with no deposit payments at all. -/
def c7Db : Db :=
  ⟨⟨1, 0, 10000, 10000, "active", none⟩, [], [], [], [1]⟩

/-- Decidable equality for `Except` outcomes, so concrete runs of the
embedded operations can be checked by `decide`. -/
instance instDecEqExcept {e a : Type} [DecidableEq e] [DecidableEq a] :
    DecidableEq (Except e a) := fun x y =>
  match x, y with
  | .ok u, .ok v =>
    if h : u = v then .isTrue (by rw [h]) else .isFalse (fun hc => h (Except.ok.inj hc))
  | .error u, .error v =>
    if h : u = v then .isTrue (by rw [h]) else .isFalse (fun hc => h (Except.error.inj hc))
  | .ok _, .error _ => .isFalse fun hc => Except.noConfusion hc
  | .error _, .ok _ => .isFalse fun hc => Except.noConfusion hc

/-- The committed price of a `place_bid` outcome, `none` on rejection. -/
def placed_price (e : Except PlaceBidError PlaceBidResult) : Option Int :=
  match e with
  | .ok r => some r.newBid.bidPrice
  | .error _ => none

/-! ## Claims C1, C2, C3, C5, C7 -/

/-- C1: for every `place_bid` call that has passed the auction-active and
deposit checks, the bid is rejected with `BidTooLow` carrying the computed
minimum (previous highest active bid + price step when a highest bid
exists, else price step) if and only if its amount is below that minimum;
the rejection detail string contains the minimum; and any amount at least
the minimum is accepted. -/
theorem bid_rejected_iff_below_minimum (db : Db) (auctionId userId : Nat)
    (bidPrice now : Int) (nextBidId : Nat) (notifyOk : Bool)
    (hid : db.auction.auctionId = auctionId)
    (hwin : db.auction.startDate ≤ now ∧ now ≤ db.auction.endDate)
    (hstat : db.auction.auctionStatus = "active")
    (hdep : has_completed_deposit db.payments auctionId userId = true) :
    (place_bid db auctionId userId bidPrice now nextBidId notifyOk =
        .error (.bidTooLow (minimum_next_bid db auctionId)) ↔
      bidPrice < minimum_next_bid db auctionId) ∧
    (minimum_next_bid db auctionId ≤ bidPrice →
      ∃ r, place_bid db auctionId userId bidPrice now nextBidId notifyOk = .ok r) ∧
    (∃ pre post, placeBidErrorDetail (.bidTooLow (minimum_next_bid db auctionId)) =
      pre ++ toString (minimum_next_bid db auctionId) ++ post) := by
  refine ⟨⟨fun herr => ?_, place_bid_rejects_low hid hwin hstat hdep⟩,
          place_bid_accepts hid hwin hstat hdep,
          ⟨"Bid must be at least ", " VND", rfl⟩⟩
  by_contra hnlt
  rw [not_lt] at hnlt
  obtain ⟨r, hr⟩ := place_bid_accepts hid hwin hstat hdep hnlt
  rw [hr] at herr
  exact Except.noConfusion herr

/-- Witness for C1: on `c1Db` (no bids, price step 10000) a bid of 5000 is
rejected with the computed minimum 10000. -/
theorem bid_rejected_iff_below_minimum_witness :
    place_bid c1Db 1 1 5000 500 1 true =
        .error (.bidTooLow (minimum_next_bid c1Db 1)) ↔
      5000 < minimum_next_bid c1Db 1 :=
  (bid_rejected_iff_below_minimum c1Db 1 1 5000 500 1 true (by decide) (by decide)
    (by decide) (by decide)).1

/-- C2 (amended): every bid accepted by `place_bid` has amount at least
(not strictly greater than) the previous highest active bid plus the price
step, or at least the price step when no prior active bid exists; the
committed bid's price is the requested amount. -/
theorem accepted_bid_at_least_minimum (db : Db) (auctionId userId : Nat)
    (bidPrice now : Int) (nextBidId : Nat) (notifyOk : Bool)
    (h : (place_bid db auctionId userId bidPrice now nextBidId notifyOk).isOk = true) :
    minimum_next_bid db auctionId ≤ bidPrice ∧
    ∀ r, place_bid db auctionId userId bidPrice now nextBidId notifyOk = .ok r →
      r.newBid.bidPrice = bidPrice := by
  cases hres : place_bid db auctionId userId bidPrice now nextBidId notifyOk with
  | error e => rw [hres] at h; simp [Except.isOk, Except.toBool] at h
  | ok r =>
    obtain ⟨-, -, -, -, hmin, hbid, -⟩ := place_bid_ok_inv hres
    refine ⟨hmin, fun r' hr' => ?_⟩
    injection hr' with hr'
    subst hr'
    rw [hbid]

/-- Witness for C2's amended theorem: on `c2Db` the accepted bid of 20000
is at least the minimum 20000. -/
theorem accepted_bid_at_least_minimum_witness :
    minimum_next_bid c2Db 1 ≤ 20000 :=
  (accepted_bid_at_least_minimum c2Db 1 2 20000 500 2 true (by decide)).1

/-- Counterexample for C2 as stated: on `c2Db` (highest active bid 10000,
price step 10000) a bid of exactly 10000 + 10000 = 20000 is accepted, so
an accepted amount is not strictly greater than previous highest plus
price step. -/
theorem accepted_bid_exact_increment_counterexample :
    placed_price (place_bid c2Db 1 2 20000 500 2 true) = some 20000 ∧
    (get_current_highest_bid c2Db.bids 1).map Bid.bidPrice = some 10000 ∧
    c2Db.auction.priceStep = 10000 ∧
    ¬ ((10000 : Int) + 10000 < 20000) := by decide

/-- C3: for every accepted bid at time `now`: if `end - now ≤ 5` minutes
the auction's end becomes the previous end plus 5 minutes (never `now + 5`
minutes) and `extended` is true; otherwise the end is unchanged and
`extended` is false; consequently the end never decreases. -/
theorem late_bid_extension (db : Db) (auctionId userId : Nat) (bidPrice now : Int)
    (nextBidId : Nat) (notifyOk : Bool) (r : PlaceBidResult)
    (h : place_bid db auctionId userId bidPrice now nextBidId notifyOk = .ok r) :
    (db.auction.endDate - now ≤ 300 →
      r.db.auction.endDate = db.auction.endDate + 300 ∧ r.extended = true) ∧
    (300 < db.auction.endDate - now →
      r.db.auction.endDate = db.auction.endDate ∧ r.extended = false) ∧
    db.auction.endDate ≤ r.db.auction.endDate := by
  obtain ⟨-, -, -, -, -, -, -, -, -, -, -, -, -, hext, -⟩ := place_bid_ok_inv h
  rcases hext with ⟨h1, h2, h3⟩ | ⟨h1, h2, h3⟩
  · exact ⟨fun _ => ⟨h3, h2⟩, fun hc => absurd h1 (by omega), by omega⟩
  · exact ⟨fun hc => absurd h1 (by omega), fun _ => ⟨h3, h2⟩, by omega⟩

/-- Witness for C3: on `c2Db` a bid at `now = 9800` (200 seconds before the
end 10000) moves the end to 10300 = 10000 + 300 with the extended flag
set. -/
theorem late_bid_extension_witness :
    c2Db.auction.endDate - 9800 ≤ 300 ∧
    c3Result.db.auction.endDate = c2Db.auction.endDate + 300 ∧
    c3Result.extended = true :=
  ⟨by decide,
   (late_bid_extension c2Db 1 2 20000 9800 2 true c3Result (by decide)).1 (by decide)⟩

/-- C5: for every accepted bid with the notification block running: when a
previous highest active bid exists and its bidder differs from the new
bidder, exactly one outbid event is emitted, addressed to that bidder
only; when the previous highest belongs to the new bidder or no previous
highest exists, no outbid event is emitted. -/
theorem outbid_event_exactly_one (db : Db) (auctionId userId : Nat)
    (bidPrice now : Int) (nextBidId : Nat) (r : PlaceBidResult)
    (h : place_bid db auctionId userId bidPrice now nextBidId true = .ok r) :
    (∀ hb, get_current_highest_bid db.bids auctionId = some hb →
      (hb.userId ≠ userId → r.outbidEvents = [hb.userId]) ∧
      (hb.userId = userId → r.outbidEvents = [])) ∧
    (get_current_highest_bid db.bids auctionId = none → r.outbidEvents = []) := by
  obtain ⟨-, -, -, -, -, -, -, -, -, -, -, -, -, -, hout⟩ := place_bid_ok_inv h
  constructor
  · intro hb hhb
    rw [hhb] at hout
    by_cases hne : hb.userId = userId
    · simp [hne] at hout
      exact ⟨fun hc => absurd hne hc, fun _ => hout⟩
    · simp [hne] at hout
      exact ⟨fun _ => hout, fun hc => absurd hc hne⟩
  · intro hnone
    rw [hnone] at hout
    simpa using hout

/-- Witness for C5: on `c2Db` the accepted bid by user 2 overtakes user 1's
bid and emits exactly one outbid event addressed to user 1. -/
theorem outbid_event_exactly_one_witness :
    c3Result.outbidEvents = [1] :=
  ((outbid_event_exactly_one c2Db 1 2 20000 9800 2 c3Result (by decide)).1
    ⟨1, 1, 1, 10000, "active", 100⟩ (by decide)).1 (by decide)

/-- C7: for every `place_bid` call by a bidder with no completed deposit
payment for the auction, the bid is rejected with `DepositRequired` for
every amount, even amounts that satisfy the minimum-increment rule; the
rejection happens before amount validation and produces no new database
state, so no bid record is written. -/
theorem deposit_gate_rejects (db : Db) (auctionId userId : Nat) (now : Int)
    (hid : db.auction.auctionId = auctionId)
    (hwin : db.auction.startDate ≤ now ∧ now ≤ db.auction.endDate)
    (hstat : db.auction.auctionStatus = "active")
    (hdep : has_completed_deposit db.payments auctionId userId = false) :
    ∀ (bidPrice : Int) (nextBidId : Nat) (notifyOk : Bool),
      place_bid db auctionId userId bidPrice now nextBidId notifyOk =
        .error .depositRequired := by
  intro bidPrice nextBidId notifyOk
  unfold place_bid
  rw [if_neg (not_not_intro hid), if_neg (not_not_intro hwin),
      if_neg (not_not_intro hstat), if_pos hdep]

/-- Witness for C7: on `c7Db` (no deposits) user 1's bid of 999999 is
rejected with `DepositRequired` although the amount passes the minimum. -/
theorem deposit_gate_rejects_witness :
    place_bid c7Db 1 1 999999 500 1 true = .error .depositRequired :=
  deposit_gate_rejects c7Db 1 1 500 (by decide) (by decide) (by decide) (by decide)
    999999 1 true

/-! ## Claim C6: the current-highest query -/

/-- The bid history of the C6 failing input: two active bids of auction 1
tied at the maximal price 100 (user 7 created at 10, user 8 created at 20)
and a cancelled bid at the higher price 300. -/
def c6Bids : List Bid :=
  [⟨1, 1, 7, 100, "active", 10⟩, ⟨2, 1, 8, 100, "active", 20⟩,
   ⟨3, 1, 9, 300, "cancelled", 30⟩]

/-- What the source query guarantees about its result and nothing more:
`ORDER BY bidPrice DESC ... LIMIT 1` (crud.py lines 330-335) constrains
the returned row to be an active bid row of the auction whose `bidPrice`
is maximal among them.  The query has no secondary sort key, so whenever
several active rows are tied at the maximal price, which of them is
returned is left to the database and any row satisfying this predicate is
a permitted result. -/
def legal_highest_row (bids : List Bid) (auctionId : Nat) (b : Bid) : Bool :=
  decide (b ∈ bids.filter (isActiveBidFor auctionId)) &&
  (bids.filter (isActiveBidFor auctionId)).all fun x =>
    decide (x.bidPrice ≤ b.bidPrice)

/-- C6: the claimed tie-break is not enforced by the code.  The query in
crud.py lines 330-335 orders by `bidPrice` descending with NO secondary
sort key, and the backing store guarantees no particular order among rows
tied on the `ORDER BY` key, so among active bids tied at the maximal
amount the database may return any of them; the claim and the spec require
the one with the earliest `created_at` deterministically.  At the failing
input `c6Bids`, both tied rows satisfy every constraint the query imposes
(`legal_highest_row`) while differing in `created_at`, so the query as
written does not determine the claimed result; the embedding's
deterministic left fold returns the earliest row, which is only one of the
permitted executions. -/
theorem highest_bid_tie_unspecified :
    legal_highest_row c6Bids 1 ⟨1, 1, 7, 100, "active", 10⟩ = true ∧
    legal_highest_row c6Bids 1 ⟨2, 1, 8, 100, "active", 20⟩ = true ∧
    (⟨1, 1, 7, 100, "active", 10⟩ : Bid).createdAt ≠
      (⟨2, 1, 8, 100, "active", 20⟩ : Bid).createdAt ∧
    get_current_highest_bid c6Bids 1 = some ⟨1, 1, 7, 100, "active", 10⟩ := by
  decide

/-! ## Claim C4: bid cancellation -/

theorem get_bid_after_cancel {db : Db} {bidId : Nat} {bid : Bid}
    (hbid : get_bid db bidId = some bid) :
    (crud_cancel_bid db.bids bidId).find? (fun b => b.bidId == bidId) =
      some { bid with bidStatus := "cancelled" } := by
  unfold crud_cancel_bid
  rw [List.find?_map]
  have hcomp : ((fun b : Bid => b.bidId == bidId) ∘ fun b : Bid =>
      if b.bidId == bidId then { b with bidStatus := "cancelled" } else b) =
      fun b : Bid => b.bidId == bidId := by
    funext b
    by_cases hb : b.bidId = bidId
    · simp [hb]
    · simp [hb]
  rw [hcomp]
  unfold get_bid at hbid
  have hp := List.find?_some hbid
  rw [hbid]
  simp only [Option.map_some']
  rw [if_pos hp]

/-- C4 (amended): for every `cancel_bid` call by the bid's owner at time
`now`: it is rejected if the bid's status is not active; rejected, for an
active bid, once the auction's end is not in the future; and rejected when
the OWNER HOLDS the current highest active bid — possibly through a
different bid — with at most 10 minutes remaining.  On success the bid's
status becomes cancelled; if the owner held the current highest bid (more
than 10 minutes necessarily remained) the end advances by exactly 5
minutes, even when the cancelled bid itself was not the leading one; if
the owner did not hold the current highest bid the end is unchanged. -/
theorem cancel_bid_rules (db : Db) (bidId userId : Nat) (now : Int) (bid : Bid)
    (hbid : get_bid db bidId = some bid) (howner : bid.userId = userId) :
    (bid.bidStatus ≠ "active" → cancel_bid db bidId userId now = .error .bidNotActive) ∧
    (db.auction.auctionId = bid.auctionId →
      (bid.bidStatus = "active" → db.auction.endDate ≤ now →
        cancel_bid db bidId userId now = .error .auctionEnded) ∧
      (bid.bidStatus = "active" → 0 < db.auction.endDate - now →
        user_is_leading db bid.auctionId userId = true →
        db.auction.endDate - now ≤ 600 →
        cancel_bid db bidId userId now = .error .leadingInLastTenMinutes) ∧
      (∀ db', cancel_bid db bidId userId now = .ok db' →
        (get_bid db' bidId).map Bid.bidStatus = some "cancelled" ∧
        (user_is_leading db bid.auctionId userId = true →
          600 < db.auction.endDate - now ∧
          db'.auction.endDate = db.auction.endDate + 300) ∧
        (user_is_leading db bid.auctionId userId = false →
          db'.auction.endDate = db.auction.endDate))) := by
  have hno : ¬ bid.userId ≠ userId := not_not_intro howner
  constructor
  · intro hstat
    simp only [cancel_bid, hbid]
    rw [if_neg hno, if_pos hstat]
  · intro haid
    have hno3 : ¬ db.auction.auctionId ≠ bid.auctionId := not_not_intro haid
    refine ⟨?_, ?_, ?_⟩
    · intro hstat hend
      simp only [cancel_bid, hbid]
      rw [if_neg hno, if_neg (not_not_intro hstat), if_neg hno3,
          if_pos (by omega : db.auction.endDate - now ≤ 0)]
    · intro hstat hpos hlead h600
      simp only [cancel_bid, hbid]
      rw [if_neg hno, if_neg (not_not_intro hstat), if_neg hno3,
          if_neg (by omega : ¬ db.auction.endDate - now ≤ 0),
          if_pos ⟨hlead, h600⟩]
    · intro db' hok
      simp only [cancel_bid, hbid] at hok
      rw [if_neg hno] at hok
      by_cases hstat : bid.bidStatus ≠ "active"
      · rw [if_pos hstat] at hok
        exact Except.noConfusion hok
      rw [if_neg hstat, if_neg hno3] at hok
      by_cases hend : db.auction.endDate - now ≤ 0
      · rw [if_pos hend] at hok
        exact Except.noConfusion hok
      rw [if_neg hend] at hok
      by_cases hlock : user_is_leading db bid.auctionId userId = true ∧
          db.auction.endDate - now ≤ 600
      · rw [if_pos hlock] at hok
        exact Except.noConfusion hok
      rw [if_neg hlock] at hok
      by_cases hl : user_is_leading db bid.auctionId userId = true
      · rw [if_pos hl] at hok
        injection hok with hok
        subst hok
        refine ⟨?_, fun _ => ⟨?_, rfl⟩, fun hfalse => absurd hl (by simp [hfalse])⟩
        · show ((crud_cancel_bid db.bids bidId).find? fun b => b.bidId == bidId).map
            Bid.bidStatus = some "cancelled"
          rw [get_bid_after_cancel hbid]
          rfl
        · rcases not_and_or.mp hlock with hc | hc
          · exact absurd hl hc
          · omega
      · rw [if_neg hl] at hok
        injection hok with hok
        subst hok
        refine ⟨?_, fun htrue => absurd htrue hl, fun _ => rfl⟩
        show ((crud_cancel_bid db.bids bidId).find? fun b => b.bidId == bidId).map
          Bid.bidStatus = some "cancelled"
        rw [get_bid_after_cancel hbid]
        rfl

/-- Auction ending at 2000; user 5 holds bid 1 (100, non-leading) and
bid 2 (200, leading). -/
def c4Db : Db :=
  ⟨⟨1, 0, 2000, 100, "active", none⟩,
   [⟨1, 1, 5, 100, "active", 10⟩, ⟨2, 1, 5, 200, "active", 20⟩], [], [], [5]⟩

/-- The database after user 5 cancels the non-leading bid 1 at `now = 1100`:
the auction end moved to 2300 although bid 1 was not the current highest. -/
def c4DbAfter : Db :=
  ⟨⟨1, 0, 2300, 100, "active", none⟩,
   [⟨1, 1, 5, 100, "cancelled", 10⟩, ⟨2, 1, 5, 200, "active", 20⟩], [], [], [5]⟩

/-- The end date a cancel outcome leaves, `none` on rejection. -/
def cancel_end (e : Except CancelBidError Db) : Option Int :=
  match e with
  | .ok d => some d.auction.endDate
  | .error _ => none

/-- Counterexample for C4 as stated: on `c4Db`, bid 1 is not the current
highest (bid 2 is), yet cancelling bid 1 succeeds and changes the
auction's end from 2000 to 2300, because the code checks whether the
OWNER of the cancelled bid holds the current highest bid, not whether the
cancelled bid itself is the highest. -/
theorem cancel_nonleading_changes_end_counterexample :
    (get_current_highest_bid c4Db.bids 1).map Bid.bidId = some 2 ∧
    cancel_end (cancel_bid c4Db 1 5 1100) = some 2300 ∧
    c4Db.auction.endDate = 2000 := by decide

/-- Witness for C4's amended theorem: cancelling with the owner leading and
900 seconds remaining succeeds and advances the end by exactly 300. -/
theorem cancel_bid_rules_witness :
    600 < c4Db.auction.endDate - 1100 ∧
    c4DbAfter.auction.endDate = c4Db.auction.endDate + 300 :=
  ((((cancel_bid_rules c4Db 1 5 1100 ⟨1, 1, 5, 100, "active", 10⟩ (by decide)
      (by decide)).2 (by decide)).2.2 c4DbAfter (by decide)).2.1 (by decide))

/-! ## Claim C8: notification failures never affect bid placement -/

/-- The transactional outcome of a `place_bid` call: the committed bid,
the extended flag, the auction row and the bid table — everything except
the notification side effects. -/
def bid_commit_view (e : Except PlaceBidError PlaceBidResult) :
    Except PlaceBidError (Bid × Bool × Auction × List Bid) :=
  e.map fun r => (r.newBid, r.extended, r.db.auction, r.db.bids)

theorem collect_disconnected_eq_filter (send : Nat → Except String Unit)
    (l : List Nat) :
    collect_disconnected send l = l.filter fun c => !(send c).isOk := by
  induction l with
  | nil => rfl
  | cons c rest ih =>
    simp only [collect_disconnected, List.filter_cons]
    cases hsc : send c with
    | ok u => simp [Except.isOk, Except.toBool, ih]
    | error e => simp [Except.isOk, Except.toBool, ih]

theorem filter_not_disconnected (send : Nat → Except String Unit) (l : List Nat) :
    (l.filter fun c => !((collect_disconnected send l).contains c)) =
      l.filter fun c => (send c).isOk := by
  apply List.filter_congr
  intro x hx
  rw [collect_disconnected_eq_filter]
  by_cases hok : (send x).isOk = true
  · simp [hok, List.mem_filter]
  · simp [hok, List.mem_filter, hx]

theorem user_channels_cons (q : Nat × List Nat) (rest : List (Nat × List Nat))
    (uid : Nat) :
    user_channels (q :: rest) uid =
      if q.1 == uid then q.2 else user_channels rest uid := by
  unfold user_channels
  rw [List.find?_cons]
  by_cases hq : (q.1 == uid) = true
  · rw [hq]
    rfl
  · rw [show (q.1 == uid) = false from by simpa using hq]
    rfl

theorem user_channels_map_self (registry : List (Nat × List Nat)) (userId : Nat)
    (g : List Nat → List Nat) (hg : g [] = []) :
    user_channels (registry.map fun p => if p.1 == userId then (p.1, g p.2) else p)
        userId = g (user_channels registry userId) := by
  induction registry with
  | nil => simpa [user_channels] using hg.symm
  | cons q rest ih =>
    rw [List.map_cons, user_channels_cons, user_channels_cons]
    simp only [beq_iff_eq] at ih ⊢
    by_cases hq : q.1 = userId
    · simp [hq]
    · simp [hq, ih]

theorem user_channels_map_other (registry : List (Nat × List Nat))
    (userId uid : Nat) (g : List Nat → List Nat) (hne : uid ≠ userId) :
    user_channels (registry.map fun p => if p.1 == userId then (p.1, g p.2) else p)
        uid = user_channels registry uid := by
  induction registry with
  | nil => rfl
  | cons q rest ih =>
    rw [List.map_cons, user_channels_cons, user_channels_cons]
    simp only [beq_iff_eq] at ih ⊢
    by_cases hq : q.1 = userId
    · simp [hq, Ne.symm hne, ih]
    · simp [hq, ih]

/-- C8: notification delivery never affects the outcome of bid placement —
the committed bid, extended flag, auction row and bid table are identical
whether the notification block runs or raises; and `send_to_user` never
raises to its caller: it returns normally, removes exactly the channels
whose send raised from the recipient's registered set, and leaves every
other user's channels unchanged. -/
theorem notification_failures_isolated :
    (∀ (db : Db) (auctionId userId : Nat) (bidPrice now : Int) (nextBidId : Nat),
      bid_commit_view (place_bid db auctionId userId bidPrice now nextBidId true) =
        bid_commit_view (place_bid db auctionId userId bidPrice now nextBidId false)) ∧
    (∀ (registry : List (Nat × List Nat)) (userId : Nat)
        (send : Nat → Except String Unit),
      (send_to_user registry userId send).isOk = true) ∧
    (∀ (registry : List (Nat × List Nat)) (userId : Nat)
        (send : Nat → Except String Unit) (reg' : List (Nat × List Nat)),
      send_to_user registry userId send = .ok reg' →
      user_channels reg' userId =
        (user_channels registry userId).filter (fun c => (send c).isOk) ∧
      ∀ uid, uid ≠ userId → user_channels reg' uid = user_channels registry uid) := by
  refine ⟨?_, ?_, ?_⟩
  · intro db auctionId userId bidPrice now nextBidId
    by_cases h1 : db.auction.auctionId ≠ auctionId <;>
    by_cases h2 : ¬ (db.auction.startDate ≤ now ∧ now ≤ db.auction.endDate) <;>
    by_cases h3 : db.auction.auctionStatus ≠ "active" <;>
    by_cases h4 : has_completed_deposit db.payments auctionId userId = false <;>
    by_cases h5 : bidPrice < minimum_next_bid db auctionId <;>
    by_cases h6 : db.auction.endDate - now ≤ 300 <;>
    simp [place_bid, bid_commit_view, Except.map, h1, h2, h3, h4, h5, h6]
  · intro registry userId send
    rfl
  · intro registry userId send reg' h
    injection h with h
    subst h
    constructor
    · rw [user_channels_map_self registry userId
        (fun l => l.filter fun c =>
          !((collect_disconnected send (user_channels registry userId)).contains c))
        rfl]
      exact filter_not_disconnected send (user_channels registry userId)
    · intro uid huid
      exact user_channels_map_other registry userId uid
        (fun l => l.filter fun c =>
          !((collect_disconnected send (user_channels registry userId)).contains c))
        huid

/-- A send function for which channel 11 raises. -/
def exSend : Nat → Except String Unit :=
  fun c => if c == 11 then .error "closed connection" else .ok ()

/-- Registry with channels 10, 11, 12 for user 1 and channel 20 for user 2. -/
def exRegistry : List (Nat × List Nat) := [(1, [10, 11, 12]), (2, [20])]

/-- The registry `send_to_user exRegistry 1 exSend` returns: channel 11 has
been unregistered, user 2 untouched. -/
def exRegistryAfter : List (Nat × List Nat) := [(1, [10, 12]), (2, [20])]

/-- Witness for C8: publishing to user 1 with channel 11 erroring returns
normally, drops exactly channel 11, and leaves user 2's channels alone. -/
theorem notification_failures_isolated_witness :
    user_channels exRegistryAfter 1 =
      (user_channels exRegistry 1).filter (fun c => (exSend c).isOk) ∧
    user_channels exRegistryAfter 2 = user_channels exRegistry 2 :=
  ⟨(notification_failures_isolated.2.2 exRegistry 1 exSend exRegistryAfter
      (by decide)).1,
   (notification_failures_isolated.2.2 exRegistry 1 exSend exRegistryAfter
      (by decide)).2 2 (by decide)⟩


/-! ## Claim C9: the winner/status invariant -/

theorem cancel_bid_preserves_winner {db : Db} {bidId userId : Nat} {now : Int}
    {db' : Db} (h : cancel_bid db bidId userId now = .ok db') :
    db'.auction.auctionStatus = db.auction.auctionStatus ∧
    db'.auction.bidWinnerId = db.auction.bidWinnerId := by
  cases hbid : get_bid db bidId with
  | none =>
    simp only [cancel_bid, hbid] at h
    exact Except.noConfusion h
  | some bid =>
    simp only [cancel_bid, hbid] at h
    repeat' split at h
    all_goals first
      | exact Except.noConfusion h
      | (injection h with h; subst h; exact ⟨rfl, rfl⟩)

theorem finalize_ok_inv {db : Db} {auctionId : Nat} {isAdmin : Bool} {now : Int}
    {db' : Db} (h : finalize_auction db auctionId isAdmin now = .ok db') :
    db'.auction.auctionStatus = "finalized" ∧
    (∃ hb, get_current_highest_bid db.bids auctionId = some hb ∧
      db'.auction.bidWinnerId = some hb.userId) ∧
    db.auction.endDate ≤ now ∧ isAdmin = true ∧ db.auction.auctionId = auctionId := by
  unfold finalize_auction at h
  by_cases ha : isAdmin = false
  · rw [if_pos ha] at h
    exact Except.noConfusion h
  rw [if_neg ha] at h
  by_cases hid : db.auction.auctionId ≠ auctionId
  · rw [if_pos hid] at h
    exact Except.noConfusion h
  rw [if_neg hid] at h
  by_cases hend : now < db.auction.endDate
  · rw [if_pos hend] at h
    exact Except.noConfusion h
  rw [if_neg hend] at h
  cases hhb : get_current_highest_bid db.bids auctionId with
  | none =>
    rw [hhb] at h
    exact Except.noConfusion h
  | some hb =>
    rw [hhb] at h
    injection h with h
    subst h
    exact ⟨rfl, ⟨hb, rfl, rfl⟩, by omega, by simpa using ha, not_ne_iff.mp hid⟩

theorem update_result_ok_inv {db : Db} {auctionId bidWinnerId : Nat}
    {isAdmin : Bool} {now : Int} {db' : Db}
    (h : update_auction_result db auctionId bidWinnerId isAdmin now = .ok db') :
    db'.auction.auctionStatus = "completed" ∧
    db'.auction.bidWinnerId = some bidWinnerId ∧
    db.auction.endDate ≤ now := by
  unfold update_auction_result at h
  by_cases ha : isAdmin = false
  · rw [if_pos ha] at h
    exact Except.noConfusion h
  rw [if_neg ha] at h
  by_cases hid : db.auction.auctionId ≠ auctionId
  · rw [if_pos hid] at h
    exact Except.noConfusion h
  rw [if_neg hid] at h
  by_cases hend : now < db.auction.endDate
  · rw [if_pos hend] at h
    exact Except.noConfusion h
  rw [if_neg hend] at h
  by_cases hacc : (bidWinnerId ∈ db.accounts) = false
  · rw [if_pos hacc] at h
    exact Except.noConfusion h
  rw [if_neg hacc] at h
  injection h with h
  subst h
  exact ⟨rfl, rfl, by omega⟩

/-- One transition of the core: a successful bid placement, bid
cancellation, finalize, or admin result update. -/
inductive Step : Db → Db → Prop where
  | placeBid {db : Db} {auctionId userId : Nat} {bidPrice now : Int}
      {nextBidId : Nat} {notifyOk : Bool} {r : PlaceBidResult} :
      place_bid db auctionId userId bidPrice now nextBidId notifyOk = .ok r →
      Step db r.db
  | cancelBid {db : Db} {bidId userId : Nat} {now : Int} {db' : Db} :
      cancel_bid db bidId userId now = .ok db' → Step db db'
  | finalize {db : Db} {auctionId : Nat} {isAdmin : Bool} {now : Int} {db' : Db} :
      finalize_auction db auctionId isAdmin now = .ok db' → Step db db'
  | updateResult {db : Db} {auctionId bidWinnerId : Nat} {isAdmin : Bool}
      {now : Int} {db' : Db} :
      update_auction_result db auctionId bidWinnerId isAdmin now = .ok db' →
      Step db db'

/-- Reachability through the core's operations. -/
def Reachable : Db → Db → Prop := Relation.ReflTransGen Step

/-- The winner/status invariant the code actually maintains. -/
def WinnerInv (db : Db) : Prop :=
  db.auction.bidWinnerId.isSome = true ↔
    (db.auction.auctionStatus = "finalized" ∨ db.auction.auctionStatus = "completed")

/-- States produced by the external creation flow: no winner, not yet
finalized or completed. -/
def InitDb (db : Db) : Prop :=
  db.auction.bidWinnerId = none ∧
  db.auction.auctionStatus ≠ "finalized" ∧ db.auction.auctionStatus ≠ "completed"

theorem step_preserves_winnerInv {a b : Db} (hstep : Step a b)
    (hinv : WinnerInv a) : WinnerInv b := by
  cases hstep with
  | placeBid h =>
    obtain ⟨-, -, -, -, -, -, -, -, -, -, -, hstatus, hwinner, -, -⟩ :=
      place_bid_ok_inv h
    unfold WinnerInv at *
    rw [hstatus, hwinner]
    exact hinv
  | cancelBid h =>
    obtain ⟨hstatus, hwinner⟩ := cancel_bid_preserves_winner h
    unfold WinnerInv at *
    rw [hstatus, hwinner]
    exact hinv
  | finalize h =>
    obtain ⟨hstatus, ⟨hb, -, hwin⟩, -⟩ := finalize_ok_inv h
    unfold WinnerInv
    rw [hstatus, hwin]
    simp
  | updateResult h =>
    obtain ⟨hstatus, hwin, -⟩ := update_result_ok_inv h
    unfold WinnerInv
    rw [hstatus, hwin]
    simp

/-- C9 (amended): in every state reachable through the core's operations
(finalize, admin result update, bid placement, bid cancellation) from an
initial state with no winner and a status other than finalized/completed,
the auction's winner reference is set if and only if its status is
finalized or completed — WITHOUT requiring that any bid exists, because the
admin result update sets a winner on an ended auction with zero bids.  The
finalize operation does set the winner to the holder of the highest active
bid and the status to finalized, and is rejected before the auction's end
or when no active bid exists. -/
theorem winner_iff_finalized_or_completed (db0 db : Db) (h0 : InitDb db0)
    (hr : Reachable db0 db) :
    WinnerInv db ∧
    (∀ (auctionId : Nat) (isAdmin : Bool) (now : Int) (db' : Db),
      finalize_auction db auctionId isAdmin now = .ok db' →
      db'.auction.auctionStatus = "finalized" ∧
      ∃ hb, get_current_highest_bid db.bids auctionId = some hb ∧
        db'.auction.bidWinnerId = some hb.userId) ∧
    (∀ (auctionId : Nat) (isAdmin : Bool) (now : Int) (db' : Db),
      now < db.auction.endDate →
      finalize_auction db auctionId isAdmin now ≠ .ok db') ∧
    (∀ (auctionId : Nat) (isAdmin : Bool) (now : Int) (db' : Db),
      get_current_highest_bid db.bids auctionId = none →
      finalize_auction db auctionId isAdmin now ≠ .ok db') := by
  refine ⟨?_, ?_, ?_, ?_⟩
  · induction hr with
    | refl =>
      unfold WinnerInv
      rw [h0.1]
      simp [h0.2.1, h0.2.2]
    | tail hab hbc ih => exact step_preserves_winnerInv hbc ih
  · intro auctionId isAdmin now db' h
    obtain ⟨h1, h2, -⟩ := finalize_ok_inv h
    exact ⟨h1, h2⟩
  · intro auctionId isAdmin now db' hlt h
    obtain ⟨-, -, hend, -⟩ := finalize_ok_inv h
    omega
  · intro auctionId isAdmin now db' hnone h
    obtain ⟨-, ⟨hb, hhb, -⟩, -⟩ := finalize_ok_inv h
    rw [hnone] at hhb
    exact Option.noConfusion hhb

/-- An ended auction with no bids, no winner, and account 7 existing. -/
def c9Init : Db := ⟨⟨1, 0, 1000, 100, "ended", none⟩, [], [], [], [7]⟩

/-- The state after the admin sets account 7 as winner of `c9Init`. -/
def c9Bad : Db := ⟨⟨1, 0, 1000, 100, "completed", some 7⟩, [], [], [], [7]⟩

/-- Counterexample for C9 as stated: from the bid-less ended auction
`c9Init`, one admin result-update step reaches `c9Bad`, where the winner
reference is set although not a single bid exists — refuting the \"at
least one bid exists\" half of the claimed invariant. -/
theorem winner_without_bids_counterexample :
    InitDb c9Init ∧ Reachable c9Init c9Bad ∧
    c9Bad.auction.bidWinnerId = some 7 ∧ c9Bad.bids = [] ∧
    update_auction_result c9Init 1 7 true 2000 = .ok c9Bad := by
  refine ⟨⟨rfl, by decide, by decide⟩, ?_, rfl, rfl, by decide⟩
  exact Relation.ReflTransGen.single
    (Step.updateResult (show update_auction_result c9Init 1 7 true 2000 = .ok c9Bad
      by decide))

/-- Witness for C9's amended theorem at the initial state itself. -/
theorem winner_iff_finalized_or_completed_witness :
    WinnerInv c9Init :=
  (winner_iff_finalized_or_completed c9Init c9Init ⟨rfl, by decide, by decide⟩
    Relation.ReflTransGen.refl).1

/-! ## Claim C10: registration deposits -/

theorem register_ok_inv {db : Db} {auctionId userId : Nat} {now : Int}
    {nextPaymentId : Nat} {db' : Db}
    (h : register_for_auction db auctionId userId now nextPaymentId = .ok db') :
    db.auction.auctionId = auctionId ∧
    now < db.auction.startDate ∧
    ¬ (db.auction.auctionStatus = "cancelled" ∨ db.auction.auctionStatus = "ended") ∧
    deposit_payments_for db.payments auctionId userId = [] ∧
    db'.payments = db.payments ++
      [⟨nextPaymentId, auctionId, userId, "deposit", "pending",
        db.auction.priceStep * 10⟩] ∧
    db'.auction = db.auction := by
  unfold register_for_auction at h
  by_cases h1 : db.auction.auctionId ≠ auctionId
  · rw [if_pos h1] at h
    exact Except.noConfusion h
  rw [if_neg h1] at h
  by_cases h2 : db.auction.startDate ≤ now
  · rw [if_pos h2] at h
    exact Except.noConfusion h
  rw [if_neg h2] at h
  by_cases h3 : db.auction.auctionStatus = "cancelled" ∨ db.auction.auctionStatus = "ended"
  · rw [if_pos h3] at h
    exact Except.noConfusion h
  rw [if_neg h3] at h
  by_cases h4 : deposit_payments_for db.payments auctionId userId ≠ []
  · rw [if_pos h4] at h
    exact Except.noConfusion h
  rw [if_neg h4] at h
  by_cases h5 : 50 ≤ (db.payments.filter fun p =>
      p.auctionId == auctionId && p.paymentType == "deposit").length
  · rw [if_pos h5] at h
    exact Except.noConfusion h
  rw [if_neg h5] at h
  injection h with h
  subst h
  exact ⟨not_ne_iff.mp h1, by omega, h3, not_not.mp h4, rfl, rfl⟩

/-- C10: every successful participation registration appends exactly one
deposit payment record with amount `price_step * 10` and status pending;
a registration only succeeds when the user had no deposit payment for the
auction; afterwards the user has exactly one, a second attempt at the same
time is rejected because a deposit payment already exists, and no later
attempt can ever succeed — so registration creates at most one deposit
payment per user and auction. -/
theorem registration_single_deposit (db db' : Db) (auctionId userId : Nat)
    (now : Int) (nextPaymentId : Nat)
    (h : register_for_auction db auctionId userId now nextPaymentId = .ok db') :
    db'.payments = db.payments ++
      [⟨nextPaymentId, auctionId, userId, "deposit", "pending",
        db.auction.priceStep * 10⟩] ∧
    deposit_payments_for db.payments auctionId userId = [] ∧
    (deposit_payments_for db'.payments auctionId userId).length = 1 ∧
    (∀ pid2, register_for_auction db' auctionId userId now pid2 =
      .error .alreadyRegistered) ∧
    (∀ (now2 : Int) (pid2 : Nat) (db'' : Db),
      register_for_auction db' auctionId userId now2 pid2 ≠ .ok db'') := by
  obtain ⟨hid, hstart, hstat, hdep, hpay, hauc⟩ := register_ok_inv h
  have hdep' : deposit_payments_for db'.payments auctionId userId =
      [⟨nextPaymentId, auctionId, userId, "deposit", "pending",
        db.auction.priceStep * 10⟩] := by
    rw [hpay]
    unfold deposit_payments_for at hdep ⊢
    rw [List.filter_append, hdep]
    simp
  refine ⟨hpay, hdep, by rw [hdep']; rfl, ?_, ?_⟩
  · intro pid2
    unfold register_for_auction
    rw [hauc]
    rw [if_neg (not_not_intro hid), if_neg (not_le.mpr hstart), if_neg hstat,
        if_pos (by rw [hdep']; simp)]
  · intro now2 pid2 db'' hcontra
    unfold register_for_auction at hcontra
    rw [hauc] at hcontra
    by_cases h1 : db.auction.auctionId ≠ auctionId
    · rw [if_pos h1] at hcontra
      exact Except.noConfusion hcontra
    rw [if_neg h1] at hcontra
    by_cases h2 : db.auction.startDate ≤ now2
    · rw [if_pos h2] at hcontra
      exact Except.noConfusion hcontra
    rw [if_neg h2] at hcontra
    rw [if_neg hstat] at hcontra
    rw [if_pos (by rw [hdep']; simp)] at hcontra
    exact Except.noConfusion hcontra

/-- A pending auction (starts at 1000) with no payments; user 5 exists. -/
def c10Db : Db := ⟨⟨1, 1000, 2000, 100, "pending", none⟩, [], [], [], [5]⟩

/-- `c10Db` after user 5 registered: one pending deposit of 10 * 100. -/
def c10DbAfter : Db :=
  ⟨⟨1, 1000, 2000, 100, "pending", none⟩, [],
   [⟨1, 1, 5, "deposit", "pending", 1000⟩], [], [5]⟩

/-- Witness for C10 on `c10Db`: registering creates the single deposit and
re-registering is rejected. -/
theorem registration_single_deposit_witness :
    deposit_payments_for c10Db.payments 1 5 = [] ∧
    (deposit_payments_for c10DbAfter.payments 1 5).length = 1 ∧
    register_for_auction c10DbAfter 1 5 500 2 = .error .alreadyRegistered :=
  ⟨(registration_single_deposit c10Db c10DbAfter 1 5 500 1 (by decide)).2.1,
   (registration_single_deposit c10Db c10DbAfter 1 5 500 1 (by decide)).2.2.1,
   (registration_single_deposit c10Db c10DbAfter 1 5 500 1 (by decide)).2.2.2.1 2⟩

end AuctionBackend
